import Mathlib

/-!
Verification development for the zltrace distributed-tracing library.

The definitions below are a shallow embedding of the Go sources:
`config.go` (configuration resolver and validation), `tracer.go`
(Tracer/Span/Carrier interfaces, global registry, context helpers),
`init.go` (safe accessor and the no-op tracer), `opentelemetry.go`
(the OpenTelemetry-backed tracer), `tracer/kafkagotracer/kafka.go`
(Kafka carrier adapters and consumer context creation) and
`adapter/httpadapter/http_client.go` (HTTP client carrier).

Go `(value, error)` pairs are embedded as products with `Option` error
components, machine-level side effects (file system, environment
variables, fresh id generation) are passed in as explicit parameters,
and the external OpenTelemetry propagator is modelled from the spec's
description of the W3C traceparent wire format.
-/

namespace Zltrace

/-! ## Configuration data model (config.go) -/

/-- OTLPConfig from config.go: OTLP gRPC exporter settings. -/
structure OTLPConfig where
  endpoint : String
  timeout : Int
  insecure : Bool
deriving DecidableEq

/-- SamplerConfig from config.go. The `Ratio float64` field is embedded
as a rational number (`ratioValue`); no claim depends on its arithmetic. -/
structure SamplerConfig where
  type : String
  ratioValue : Rat
deriving DecidableEq

/-- ExporterConfig from config.go. -/
structure ExporterConfig where
  type : String
  otlp : OTLPConfig
  maxQueueSize : Int
deriving DecidableEq

/-- BatchConfig from config.go. -/
structure BatchConfig where
  batchSize : Int
  timeout : Int
  maxQueueSize : Int
deriving DecidableEq

/-- TraceConfig from config.go. -/
structure TraceConfig where
  enabled : Bool
  serviceName : String
  sampler : SamplerConfig
  exporter : ExporterConfig
  batch : BatchConfig
deriving DecidableEq

/-- Errors produced by the configuration code. The two validation errors
carry exactly the data the corresponding `fmt.Errorf` messages embed;
`invalidExporterType` carries the rejected type string, mirroring
"invalid exporter type: %s (must be otlp, stdout, or none)". `readError`
stands for a `ReadInConfig` failure on an existing but unreadable file. -/
inductive ConfigError where
  | invalidExporterType (t : String)
  | missingOTLPEndpoint
  | readError
deriving DecidableEq

/-- validateConfig from config.go: a disabled config is accepted outright;
otherwise the exporter type must be otlp, stdout or none, and an otlp
exporter must have a non-empty endpoint. -/
def validateConfig (config : TraceConfig) : Option ConfigError :=
  if !config.enabled then
    none
  else if config.exporter.type = "otlp" ∨ config.exporter.type = "stdout"
      ∨ config.exporter.type = "none" then
    if config.exporter.type = "otlp" ∧ config.exporter.otlp.endpoint = "" then
      some ConfigError.missingOTLPEndpoint
    else
      none
  else
    some (ConfigError.invalidExporterType config.exporter.type)

/-- getDefaultConfig from config.go, with `detectServiceName()` (an
environment probe) passed in as the `serviceName` argument. -/
def getDefaultConfig (serviceName : String) : TraceConfig :=
  { enabled := true
    serviceName := serviceName
    sampler := { type := "always_on", ratioValue := 1 }
    exporter :=
      { type := "stdout"
        maxQueueSize := 2048
        otlp := { endpoint := "localhost:4317", timeout := 10, insecure := true } }
    batch := { batchSize := 512, timeout := 5, maxQueueSize := 2048 } }

/-! ## Configuration loader (config.go, ConfigLoader)

The file system seen by the loader is embedded as explicit state values:
a `FileState` describes what one candidate path holds, an `AppFileState`
additionally distinguishes a file without a `trace` section. Viper's
key-by-key reading in `parseTraceConfig`/`parseAppTraceConfig` is
abstracted to the `TraceConfig` those overrides produce (the `content`
payload); the validation step at the end of both parse functions, whose
control flow the claims are about, is kept verbatim. -/

/-- State of one candidate trace-format config file as seen by
`loadFromTraceYAMLFile`: absent, unreadable, or parsed to a config. -/
inductive FileState where
  | missing
  | unreadable
  | content (cfg : TraceConfig)
deriving DecidableEq

/-- State of one candidate application.yaml-format file as seen by
`loadFromAppYAML`: absent, unreadable, readable without a `trace`
section, or parsed to a config. -/
inductive AppFileState where
  | missing
  | unreadable
  | noTraceKey
  | content (cfg : TraceConfig)
deriving DecidableEq

/-- parseTraceConfig from config.go, after abstracting the viper field
reads into the resulting `cfg`: validate and return `(cfg, nil)` or
`(nil, err)`. -/
def parseTraceConfig (cfg : TraceConfig) : Option TraceConfig × Option ConfigError :=
  match validateConfig cfg with
  | some e => (none, some e)
  | none => (some cfg, none)

/-- parseAppTraceConfig from config.go; identical validation tail. -/
def parseAppTraceConfig (cfg : TraceConfig) : Option TraceConfig × Option ConfigError :=
  match validateConfig cfg with
  | some e => (none, some e)
  | none => (some cfg, none)

/-- loadFromTraceYAMLFile from config.go: a missing file yields
`(nil, nil)`, an unreadable one `(nil, err)`, and a parsed one goes
through `parseTraceConfig` (which validates). -/
def loadFromTraceYAMLFile : FileState → Option TraceConfig × Option ConfigError
  | FileState.missing => (none, none)
  | FileState.unreadable => (none, some ConfigError.readError)
  | FileState.content cfg => parseTraceConfig cfg

/-- loadFromTraceYAML from config.go: walk the config dirs; an error from
any dir is returned immediately, a found config wins, and a missing file
moves on to the next dir. -/
def loadFromTraceYAML : List FileState → Option TraceConfig × Option ConfigError
  | [] => (none, none)
  | f :: rest =>
    match loadFromTraceYAMLFile f with
    | (_, some e) => (none, some e)
    | (some c, none) => (some c, none)
    | (none, none) => loadFromTraceYAML rest

/-- loadFromAppYAML from config.go: missing, unreadable and
`trace`-section-less files are skipped; a file with a `trace` section is
parsed and validated, an error being returned immediately. -/
def loadFromAppYAML : List AppFileState → Option TraceConfig × Option ConfigError
  | [] => (none, none)
  | AppFileState.missing :: rest => loadFromAppYAML rest
  | AppFileState.unreadable :: rest => loadFromAppYAML rest
  | AppFileState.noTraceKey :: rest => loadFromAppYAML rest
  | AppFileState.content cfg :: rest =>
    match parseAppTraceConfig cfg with
    | (_, some e) => (none, some e)
    | (some c, none) => (some c, none)
    | (none, none) => loadFromAppYAML rest

/-- Step 4 of Load in config.go: the zltrace.yaml loop guards each dir
with `config != nil && err == nil`, so per-dir errors are skipped. -/
def loadZltraceYamlDirs : List FileState → Option TraceConfig
  | [] => none
  | f :: rest =>
    match loadFromTraceYAMLFile f with
    | (some c, none) => some c
    | _ => loadZltraceYamlDirs rest

/-- The inputs ConfigLoader.Load consults, one field per ranked source.
`envName` is the value `detectEnv()` returned, `envPathFile` is the state
of the `$ZLTRACE_CONFIG` file (`none` when the variable is empty), and
`defaultServiceName` is what `detectServiceName()` returns. -/
structure LoaderEnv where
  traceYaml : List FileState
  appYaml : List AppFileState
  appEnvYaml : List AppFileState
  envName : String
  zltraceYaml : List FileState
  envPathFile : Option FileState
  etcFile : FileState
  defaultServiceName : String

/-- ConfigLoader.Load from config.go: each ranked source is tried in
order under the guard `config != nil && err == nil`, and the built-in
defaults close the chain. -/
def Load (env : LoaderEnv) : Option TraceConfig × Option ConfigError :=
  let r1 := loadFromTraceYAML env.traceYaml
  if r1.1.isSome ∧ r1.2.isNone then (r1.1, none)
  else
    let r2 := loadFromAppYAML env.appYaml
    if r2.1.isSome ∧ r2.2.isNone then (r2.1, none)
    else
      let r3 := if env.envName ≠ "" then loadFromAppYAML env.appEnvYaml else (none, none)
      if r3.1.isSome ∧ r3.2.isNone then (r3.1, none)
      else
        match loadZltraceYamlDirs env.zltraceYaml with
        | some c => (some c, none)
        | none =>
          let r5 := match env.envPathFile with
            | some f =>
              let r := loadFromTraceYAMLFile f
              if r.1.isSome ∧ r.2.isNone then r.1 else none
            | none => none
          match r5 with
          | some c => (some c, none)
          | none =>
            let r6 := loadFromTraceYAMLFile env.etcFile
            if r6.1.isSome ∧ r6.2.isNone then (r6.1, none)
            else (some (getDefaultConfig env.defaultServiceName), none)

/-! ## W3C traceparent propagation format

The concrete propagator is the external OpenTelemetry
`propagation.TraceContext`, an external collaborator of this repository.
It is modelled from the spec: a single text value under the key
`traceparent`, four dash-separated fields — a 2-hex-digit version, a
32-hex-digit trace id, a 16-hex-digit span id and a 2-hex-digit flags
byte — with anything else rejected, and rejection leaving the input
context unchanged. -/

/-- Hexadecimal digit test for the traceparent fields. -/
def isHexDigitChar (c : Char) : Bool :=
  c.isDigit ∨ ('a' ≤ c ∧ c ≤ 'f') ∨ ('A' ≤ c ∧ c ≤ 'F')

/-- Split a character list at every dash, the structural-recursion
equivalent of `strings.Split(s, "-")`. -/
def splitOnDashChars : List Char → List (List Char)
  | [] => [[]]
  | c :: rest =>
    if c = '-' then [] :: splitOnDashChars rest
    else
      match splitOnDashChars rest with
      | [] => [[c]]
      | g :: gs => (c :: g) :: gs

/-- Field test: exactly `n` hex digits. -/
def isHexField (n : Nat) (cs : List Char) : Bool :=
  (cs.length == n) && cs.all isHexDigitChar

/-- Modelled from the spec: validity of a traceparent value — exactly
four dash-separated fields of 2, 32, 16 and 2 hex digits. -/
def validTraceparent (s : String) : Bool :=
  match splitOnDashChars s.toList with
  | [ver, tid, sid, flags] =>
    isHexField 2 ver && isHexField 32 tid && isHexField 16 sid && isHexField 2 flags
  | _ => false

/-- Propagated identifiers carried by one span: the 32-hex trace id and
the 16-hex span id. -/
structure SpanContext where
  traceId : String
  spanId : String
deriving DecidableEq

/-- Modelled from the spec: parsing a traceparent value into the remote
span context, `none` on any malformed value. -/
def parseTraceparent (s : String) : Option SpanContext :=
  if validTraceparent s then
    match splitOnDashChars s.toList with
    | [_, tid, sid, _] => some { traceId := String.mk tid, spanId := String.mk sid }
    | _ => none
  else
    none

/-! ## Spans, ambient contexts and context helpers (tracer.go, init.go) -/

/-- Span values that can sit in a context: the no-op span from init.go
(whose `TraceID()` is `""`) or an OTEL-backed span wrapping the span it
was created with. -/
inductive SpanV where
  | noOpSpan
  | otelSpan (sc : SpanContext)
deriving DecidableEq

/-- TraceID of a span, per `noOpSpan.TraceID` (empty string) and
`OTELSpan.TraceID` (the wrapped span context's trace id). -/
def spanTraceID : SpanV → String
  | SpanV.noOpSpan => ""
  | SpanV.otelSpan sc => sc.traceId

/-- An ambient `context.Context`, restricted to the two slots the
embedded code reads and writes: the value under zltrace's private
`_spanKey` (tracer.go) and the value under the OpenTelemetry SDK's own
span key (written by `tracer.Start` and the propagator's Extract). -/
structure Context where
  zlSpan : Option SpanV
  otelSpanCtx : Option SpanContext
deriving DecidableEq

/-- context.Background(): both slots empty. -/
def Context.background : Context := { zlSpan := none, otelSpanCtx := none }

/-- ContextWithSpan from tracer.go: store the span under `_spanKey`. -/
def ContextWithSpan (ctx : Context) (span : SpanV) : Context :=
  { ctx with zlSpan := some span }

/-- SpanFromContext from tracer.go: read the `_spanKey` slot, `none`
standing for Go's nil result. -/
def SpanFromContext (ctx : Context) : Option SpanV :=
  ctx.zlSpan

/-! ## Tracer implementations (init.go, opentelemetry.go)

A Go `Carrier` is used by the tracers only through its `Get`, embedded
as a function `String → String × Bool`. The OTEL SDK's `tracer.Start`
draws fresh identifiers from the outside world; they are passed in as
the explicit arguments `freshTid`/`freshSid`. -/

/-- noOpTracer.StartSpan from init.go: a no-op span, context unchanged. -/
def noOpStartSpan (ctx : Context) (_operationName : String) : SpanV × Context :=
  (SpanV.noOpSpan, ctx)

/-- noOpTracer.Extract from init.go: input context, nil error. -/
def noOpExtract (ctx : Context) (_get : String → String × Bool) :
    Context × Option Unit :=
  (ctx, none)

/-- carrierAdapter.Get from opentelemetry.go: the carrier's value when
found, otherwise the empty string. -/
def carrierAdapterGet (get : String → String × Bool) (key : String) : String :=
  let r := get key
  if r.2 then r.1 else ""

/-- Modelled from the spec: the external OTEL propagator's Extract —
install the remote span context parsed from the `traceparent` value, or
return the context unchanged when it is absent or malformed. -/
def otelPropagatorExtract (ctx : Context) (get : String → String) : Context :=
  match parseTraceparent (get "traceparent") with
  | some sc => { ctx with otelSpanCtx := some sc }
  | none => ctx

/-- OTELTracer.Extract from opentelemetry.go: adapt the carrier, run the
propagator, and return `(ctx, nil)` — the error is the literal `nil` of
the source's `return ctx, nil`. -/
def OTELTracerExtract (ctx : Context) (get : String → String × Bool) :
    Context × Option Unit :=
  (otelPropagatorExtract ctx (carrierAdapterGet get), none)

/-- OTELTracer.StartSpan from opentelemetry.go, with the external SDK's
`tracer.Start` modelled from the spec: the new span keeps the parent
trace id from the context when one is present and otherwise gets the
fresh trace id; the span is recorded in the context under the SDK's own
key, not under zltrace's `_spanKey`. -/
def otelStartSpan (freshTid freshSid : String) (ctx : Context)
    (_operationName : String) : SpanV × Context :=
  let sc : SpanContext :=
    match ctx.otelSpanCtx with
    | some parent => { traceId := parent.traceId, spanId := freshSid }
    | none => { traceId := freshTid, spanId := freshSid }
  (SpanV.otelSpan sc, { ctx with otelSpanCtx := some sc })

/-- The tracer implementations the repository can register. -/
inductive TracerImpl where
  | noOp
  | otel
deriving DecidableEq

/-- Dispatch of `Tracer.StartSpan` over the implementations. -/
def tracerStartSpan : TracerImpl → String → String → Context → String → SpanV × Context
  | TracerImpl.noOp, _, _, ctx, name => noOpStartSpan ctx name
  | TracerImpl.otel, ft, fs, ctx, name => otelStartSpan ft fs ctx name

/-- Dispatch of `Tracer.Extract` over the implementations. -/
def tracerExtract : TracerImpl → Context → (String → String × Bool) → Context × Option Unit
  | TracerImpl.noOp, ctx, get => noOpExtract ctx get
  | TracerImpl.otel, ctx, get => OTELTracerExtract ctx get

/-! ## Global tracer registry (tracer.go, init.go)

The registry's only state is the `globalTracer` interface variable; a
nil interface value is `none`. The RWMutex serialises access and plays
no role in the sequential semantics. -/

/-- The registry state before any `RegisterTracer` call: Go's zero-value
nil interface. -/
def initialRegistry : Option TracerImpl := none

/-- RegisterTracer from tracer.go: overwrite the global tracer, nil
(`none`) included. -/
def RegisterTracer (tracer : Option TracerImpl) (_s : Option TracerImpl) :
    Option TracerImpl :=
  tracer

/-- GetTracer from tracer.go: read the global tracer. -/
def GetTracer (s : Option TracerImpl) : Option TracerImpl := s

/-- GetSafeTracer from init.go: the registered tracer, or a fresh
`noOpTracer` when the global tracer is nil. -/
def GetSafeTracer (s : Option TracerImpl) : TracerImpl :=
  match GetTracer s with
  | none => TracerImpl.noOp
  | some t => t

/-! ## Kafka carrier adapters (tracer/kafkagotracer/kafka.go) -/

/-- One `kafka.Header`; the `[]byte` value is embedded as a string, the
only way the carriers read and write it. -/
structure KafkaHeader where
  key : String
  value : String
deriving DecidableEq

/-- kafkaProducerHeaderCarrier.Set from kafka.go: overwrite the value of
the first header with the given key in place, or append a new header
when no key matches. -/
def producerSet (key v : String) : List KafkaHeader → List KafkaHeader
  | [] => [{ key := key, value := v }]
  | h :: rest =>
    if h.key = key then { h with value := v } :: rest
    else h :: producerSet key v rest

/-- kafkaProducerHeaderCarrier.Get from kafka.go: the first header with
the given key, or `("", false)`. -/
def producerGet (key : String) : List KafkaHeader → String × Bool
  | [] => ("", false)
  | h :: rest => if h.key = key then (h.value, true) else producerGet key rest

/-- kafkaConsumerHeaderCarrier.Set from kafka.go: an empty body — the
wrapped header list is returned untouched. -/
def consumerSet (_key _v : String) (headers : List KafkaHeader) : List KafkaHeader :=
  headers

/-- kafkaConsumerHeaderCarrier.Get from kafka.go: same loop as the
producer side. -/
def consumerGet (key : String) : List KafkaHeader → String × Bool
  | [] => ("", false)
  | h :: rest => if h.key = key then (h.value, true) else consumerGet key rest

/-- CreateKafkaConsumerContext from kafka.go: with no registered tracer
return the background context; otherwise Extract from the message
headers, and on error start and finish a span on a fresh background
context, else start and finish a span on the extracted context. -/
def CreateKafkaConsumerContext (reg : Option TracerImpl)
    (freshTid freshSid : String) (headers : List KafkaHeader) : Context :=
  match GetTracer reg with
  | none => Context.background
  | some tracer =>
    let carrier := fun key => consumerGet key headers
    let r := tracerExtract tracer Context.background carrier
    match r.2 with
    | some _ =>
      let s := tracerStartSpan tracer freshTid freshSid Context.background "Kafka/Consume"
      s.2
    | none =>
      let s := tracerStartSpan tracer freshTid freshSid r.1 "Kafka/Consume"
      s.2

/-! ## HTTP header collections and carrier adapters

`net/http`'s `Header` is a map from canonical MIME header keys to value
lists; it is embedded as an association list whose keys are canonical
(Go's map cannot hold two entries for one key, so well-formed states
have at most one entry per key). `Header.Set` and `Header.Values`
canonicalise the key exactly as `textproto.CanonicalMIMEHeaderKey`
does, which is what makes header access case-insensitive. -/

/-- Go textproto's `validHeaderFieldByte`: letters, digits and the
token punctuation characters (codes 39 and 96 are the apostrophe and
the backtick). -/
def validHeaderFieldByte (c : Char) : Bool :=
  c.isAlphanum ||
    c ∈ ['!', '#', '$', '%', '&', Char.ofNat 39, '*', '+', '-', '.',
        Char.ofNat 94, '_', Char.ofNat 96, '|', Char.ofNat 126]

/-- Core loop of `canonicalMIMEHeaderKey`: uppercase a letter at the
start or after a hyphen, lowercase it elsewhere. -/
def canonicalizeChars : Bool → List Char → List Char
  | _, [] => []
  | upper, c :: rest =>
    let c2 := if upper then c.toUpper else c.toLower
    c2 :: canonicalizeChars (c2 = '-') rest

/-- Go textproto's `CanonicalMIMEHeaderKey`: a key with any invalid
byte is returned unchanged, otherwise it is canonicalised. -/
def canonicalMIMEHeaderKey (s : String) : String :=
  if s.toList.all validHeaderFieldByte then
    String.mk (canonicalizeChars true s.toList)
  else s

/-- An `http.Header`: canonical key to value list. -/
def Header := List (String × List String)

/-- Map assignment `h[key] = vs`: replace the entry for the key, or add
one when the key is new. -/
def headerSetEntry (k : String) (vs : List String) : Header → Header
  | [] => [(k, vs)]
  | e :: rest => if e.1 = k then (k, vs) :: rest else e :: headerSetEntry k vs rest

/-- `http.Header.Set`: canonicalise the key and replace its value list
with the single given value. -/
def headerSet (key value : String) (h : Header) : Header :=
  headerSetEntry (canonicalMIMEHeaderKey key) [value] h

/-- `http.Header.Values`: the value list stored under the canonical
key, nil when absent. -/
def headerValues (key : String) (h : Header) : List String :=
  match h.find? (fun e => e.1 = canonicalMIMEHeaderKey key) with
  | some e => e.2
  | none => []

/-- `http.Header.Get` (used by gin's `GetHeader`): the first stored
value, or the empty string. -/
def headerGet (key : String) (h : Header) : String :=
  match headerValues key h with
  | [] => ""
  | v :: _ => v

/-- httpHeaderCarrier.Set from adapter/httpadapter/http_client.go:
delegate to `http.Header.Set`. -/
def httpHeaderCarrierSet (key value : String) (h : Header) : Header :=
  headerSet key value h

/-- httpHeaderCarrier.Get from adapter/httpadapter/http_client.go: the
first of `Values(key)`, or `("", false)` when there are none. -/
def httpHeaderCarrierGet (key : String) (h : Header) : String × Bool :=
  match headerValues key h with
  | [] => ("", false)
  | v :: _ => (v, true)

/-- HTTPTraceHandler.GetHeader as implemented by the gin adapter
(tracer/httptrace/gin.go): `c.GetHeader`, i.e. `http.Header.Get` on the
request headers. -/
def handlerGetHeader (h : Header) (key : String) : String :=
  headerGet key h

/-- HTTPHeaderCarrier.Get from init.go (server side): the handler's
header value, found iff it is non-empty. -/
def HTTPHeaderCarrierGet (h : Header) (key : String) : String × Bool :=
  let value := handlerGetHeader h key
  (value, value ≠ "")

/-- HTTPHeaderCarrier.Set from init.go (server side): an empty body —
the wrapped request is untouched. -/
def HTTPHeaderCarrierSet (_key _value : String) (h : Header) : Header :=
  h

/-! ## Concrete instances used by witnesses and counterexamples -/

/-- The spec's example traceparent value. -/
def demoTraceparent : String :=
  "00-4bf92f3577b34da6a3ce929d0e0e4736-00f067aa0ba902b7-01"

/-- An enabled config whose exporter type is outside the allowed set. -/
def badExporterConfig : TraceConfig :=
  { getDefaultConfig "zltrace" with
    exporter := { (getDefaultConfig "zltrace").exporter with type := "kafka" } }

/-- A loader environment whose highest-ranked source (trace.yaml in the
first config dir) exists and parses but fails validation, every other
source being absent. -/
def loadCounterEnv : LoaderEnv :=
  { traceYaml := [FileState.content badExporterConfig, FileState.missing]
    appYaml := [AppFileState.missing, AppFileState.missing]
    appEnvYaml := [AppFileState.missing, AppFileState.missing]
    envName := "dev"
    zltraceYaml := [FileState.missing, FileState.missing]
    envPathFile := none
    etcFile := FileState.missing
    defaultServiceName := "zltrace" }

/-- Number of Kafka headers carrying a given key. -/
def countKey (k : String) (hs : List KafkaHeader) : Nat :=
  hs.countP (fun h => h.key = k)

/-! ## Helper lemmas -/

theorem producerGet_producerSet_self (k v : String) (hs : List KafkaHeader) :
    producerGet k (producerSet k v hs) = (v, true) := by
  induction hs with
  | nil => simp [producerSet, producerGet]
  | cons h rest ih =>
    by_cases hk : h.key = k
    · simp [producerSet, producerGet, hk]
    · simp [producerSet, producerGet, hk, ih]

theorem countKey_producerSet (k v : String) (hs : List KafkaHeader) :
    countKey k (producerSet k v hs) =
      if countKey k hs = 0 then 1 else countKey k hs := by
  induction hs with
  | nil => simp [producerSet, countKey]
  | cons h rest ih =>
    by_cases hk : h.key = k
    · simp [producerSet, countKey, hk, List.countP_cons]
    · simp only [producerSet, hk, if_false, countKey, List.countP_cons] at *
      simp [hk, ih]

theorem producerGet_eq_find (k : String) (hs : List KafkaHeader) :
    producerGet k hs =
      (match hs.find? (fun h => h.key = k) with
      | some h => (h.value, true)
      | none => ("", false)) := by
  induction hs with
  | nil => rfl
  | cons h rest ih =>
    by_cases hk : h.key = k
    · simp [producerGet, hk, List.find?_cons]
    · simp [producerGet, hk, List.find?_cons, ih]

theorem consumerGet_eq_find (k : String) (hs : List KafkaHeader) :
    consumerGet k hs =
      (match hs.find? (fun h => h.key = k) with
      | some h => (h.value, true)
      | none => ("", false)) := by
  induction hs with
  | nil => rfl
  | cons h rest ih =>
    by_cases hk : h.key = k
    · simp [consumerGet, hk, List.find?_cons]
    · simp [consumerGet, hk, List.find?_cons, ih]

theorem parseTraceparent_empty : parseTraceparent "" = none := by decide

theorem parseTraceparent_traceId_length (s : String) (p : SpanContext)
    (h : parseTraceparent s = some p) : p.traceId.length = 32 := by
  unfold parseTraceparent at h
  split at h
  case isTrue hv =>
    unfold validTraceparent at hv
    split at h
    case h_1 x1 tid sid x2 heq =>
      rw [heq] at hv
      simp only [Option.some.injEq] at h
      subst h
      simp only [isHexField, Bool.and_eq_true, beq_iff_eq, List.all_eq_true] at hv
      have htid : tid.length = 32 := by tauto
      simpa using htid
    case h_2 => exact absurd h (by simp)
  case isFalse hv => exact absurd h (by simp)

theorem find_headerSetEntry_self (k : String) (vs : List String) (h : Header) :
    (headerSetEntry k vs h).find? (fun e => e.1 = k) = some (k, vs) := by
  induction h with
  | nil => simp [headerSetEntry]
  | cons e rest ih =>
    by_cases he : e.1 = k
    · simp [headerSetEntry, he, List.find?_cons]
    · simp [headerSetEntry, he, List.find?_cons, ih]

theorem countP_headerSetEntry (k : String) (vs : List String) (h : Header) :
    (headerSetEntry k vs h).countP (fun e => e.1 = k) =
      if h.countP (fun e => e.1 = k) = 0 then 1
      else h.countP (fun e => e.1 = k) := by
  induction h with
  | nil => simp [headerSetEntry]
  | cons e rest ih =>
    by_cases he : e.1 = k
    · simp [headerSetEntry, he, List.countP_cons]
    · simp only [headerSetEntry, he, if_false, List.countP_cons] at *
      simp [he, ih]

theorem headerValues_headerSet_self (key value : String) (h : Header) :
    headerValues key (headerSet key value h) = [value] := by
  unfold headerValues headerSet
  rw [find_headerSetEntry_self]

/-! ## Claim theorems -/

/-- C1: GetSafeTracer always returns a non-absent Tracer: on the initial
registry state (no Register call) it returns the NoOp tracer, after
`RegisterTracer (some t)` it returns `t`, and after `RegisterTracer none`
(Go's `RegisterTracer(nil)`) it returns the NoOp tracer — never an
absent value. -/
theorem getSafeTracer_never_absent :
    GetSafeTracer initialRegistry = TracerImpl.noOp ∧
    (∀ (s : Option TracerImpl) (t : TracerImpl),
      GetSafeTracer (RegisterTracer (some t) s) = t) ∧
    (∀ s : Option TracerImpl,
      GetSafeTracer (RegisterTracer none s) = TracerImpl.noOp) :=
  ⟨rfl, fun _ _ => rfl, fun _ => rfl⟩

/-- C4 counterexample: the claim that reading back from the returned
context via the ambient-context helper yields the new span fails for the
no-op tracer at a concrete input — `noOpTracer.StartSpan` returns the
input context untouched, so `SpanFromContext` does not see the span. -/
theorem startSpan_ambient_read_counterexample :
    SpanFromContext (noOpStartSpan Context.background "GetUser").2 ≠
      some (noOpStartSpan Context.background "GetUser").1 := by
  decide

/-- C4 amended: StartSpan never fails (it is total) and leaves the
original context unmodified, but the new span is not attached under the
ambient-context helper's slot: the no-op tracer returns the context
unchanged, the OTEL tracer records the span only under the backend's own
context key (so `SpanFromContext` of the new context equals that of the
old one), and only an explicit `ContextWithSpan` makes `SpanFromContext`
yield the span. -/
theorem startSpan_total_ambient_unchanged (ctx : Context) (name ft fs : String) :
    noOpStartSpan ctx name = (SpanV.noOpSpan, ctx) ∧
    SpanFromContext (otelStartSpan ft fs ctx name).2 = SpanFromContext ctx ∧
    (∀ span : SpanV, SpanFromContext (ContextWithSpan ctx span) = some span) :=
  ⟨rfl, rfl, fun _ => rfl⟩

/-- C5: validateConfig accepts a TraceConfig iff it is disabled, or the
exporter type is one of otlp/stdout/none with a non-empty endpoint
whenever the type is otlp; rejection of an enabled config with an
out-of-range type produces the error carrying that invalid value. -/
theorem validateConfig_spec (c : TraceConfig) :
    (validateConfig c = none ↔
      c.enabled = false ∨
        ((c.exporter.type = "otlp" ∨ c.exporter.type = "stdout" ∨
            c.exporter.type = "none") ∧
          (c.exporter.type = "otlp" → c.exporter.otlp.endpoint ≠ ""))) ∧
    (c.enabled = true →
      ¬(c.exporter.type = "otlp" ∨ c.exporter.type = "stdout" ∨
          c.exporter.type = "none") →
      validateConfig c = some (ConfigError.invalidExporterType c.exporter.type)) := by
  constructor
  · unfold validateConfig
    split_ifs with h1 h2 h3 <;> simp_all
  · intro hen ht
    unfold validateConfig
    rw [if_neg (by simp [hen]), if_neg ht]

/-- C5 witness: the theorem applied to a concrete enabled config with
exporter type "kafka" yields the rejection naming that value. -/
theorem validateConfig_spec_witness :
    badExporterConfig.enabled = true ∧
    validateConfig badExporterConfig =
      some (ConfigError.invalidExporterType "kafka") :=
  ⟨rfl, (validateConfig_spec badExporterConfig).2 rfl (by decide)⟩

/-- C6: for the Kafka producer carrier, Set followed by Set on the same
key overwrites in place: Get then returns the second value, the header
list holds exactly one entry for the key (given it held at most one
before, as in any state reachable by Sets), and Get always returns the
first matching entry's value or not-found. -/
theorem producer_carrier_set_overwrites (k v1 v2 : String) (hs : List KafkaHeader)
    (hcount : countKey k hs ≤ 1) :
    producerGet k (producerSet k v2 (producerSet k v1 hs)) = (v2, true) ∧
    countKey k (producerSet k v2 (producerSet k v1 hs)) = 1 ∧
    (∀ (key : String) (hs2 : List KafkaHeader),
      producerGet key hs2 =
        (match hs2.find? (fun h => h.key = key) with
        | some h => (h.value, true)
        | none => ("", false))) := by
  refine ⟨producerGet_producerSet_self k v2 _, ?_, fun key hs2 => producerGet_eq_find key hs2⟩
  rw [countKey_producerSet, countKey_producerSet]
  by_cases h0 : countKey k hs = 0
  · simp [h0]
  · have h1 : countKey k hs = 1 :=
      Nat.le_antisymm hcount (Nat.one_le_iff_ne_zero.mpr h0)
    simp [h1]

/-- C6 witness: the theorem applied to the empty header list and the
traceparent key. -/
theorem producer_carrier_set_overwrites_witness :
    countKey "traceparent" ([] : List KafkaHeader) ≤ 1 ∧
    producerGet "traceparent"
      (producerSet "traceparent" "00-b"
        (producerSet "traceparent" "00-a" [])) = ("00-b", true) ∧
    countKey "traceparent"
      (producerSet "traceparent" "00-b"
        (producerSet "traceparent" "00-a" [])) = 1 :=
  ⟨by decide,
   (producer_carrier_set_overwrites "traceparent" "00-a" "00-b" [] (by decide)).1,
   (producer_carrier_set_overwrites "traceparent" "00-a" "00-b" [] (by decide)).2.1⟩

/-- C7: the Kafka consumer carrier's Set is a true no-op (the wrapped
header list is unchanged), and its Get returns the first entry whose key
matches, or not-found. -/
theorem consumer_carrier_noop_get_first (k v : String) (hs : List KafkaHeader) :
    consumerSet k v hs = hs ∧
    consumerGet k hs =
      (match hs.find? (fun h => h.key = k) with
      | some h => (h.value, true)
      | none => ("", false)) :=
  ⟨rfl, consumerGet_eq_find k hs⟩

/-- C2 counterexample: at a concrete carrier holding no traceparent
value at all, `OTELTracer.Extract` returns a nil error — the claim
demands a non-nil one — while the context does come back unchanged. -/
theorem otelExtract_nil_error_counterexample :
    (OTELTracerExtract Context.background (fun _ : String => ("", false))).2 = none ∧
    (OTELTracerExtract Context.background (fun _ : String => ("", false))).1 =
      Context.background :=
  ⟨rfl, rfl⟩

/-- C2 amended: for every carrier whose stored traceparent value is
absent, or present but not four dash-separated fields of the expected
hex lengths, `OTELTracer.Extract` returns the input context unchanged
and a nil error (the source ends in `return ctx, nil`; the fresh-trace
fallback is reached through the unchanged context, not through a
returned error). -/
theorem otelExtract_absent_or_malformed_unchanged (ctx : Context)
    (get : String → String × Bool)
    (h : (get "traceparent").2 = false ∨
      validTraceparent (get "traceparent").1 = false) :
    OTELTracerExtract ctx get = (ctx, none) := by
  have hparse : parseTraceparent (carrierAdapterGet get "traceparent") = none := by
    unfold carrierAdapterGet
    cases hb : (get "traceparent").2 with
    | false => simp [hb, parseTraceparent_empty]
    | true =>
      rcases h with hh | hh
      · rw [hb] at hh; cases hh
      · simp only [hb, if_true]
        unfold parseTraceparent
        rw [if_neg (by simp [hh])]
  unfold OTELTracerExtract otelPropagatorExtract
  rw [hparse]

/-- C2 witness: the amended theorem applied to the empty carrier. -/
theorem otelExtract_absent_or_malformed_unchanged_witness :
    ((fun _ : String => ("", false)) "traceparent").2 = false ∧
    OTELTracerExtract Context.background (fun _ : String => ("", false)) =
      (Context.background, none) :=
  ⟨rfl, otelExtract_absent_or_malformed_unchanged Context.background
    (fun _ : String => ("", false)) (Or.inl rfl)⟩

/-- C10: the server-side HTTP carrier treats an empty header value as
absent — for a key whose header is missing, or present with the empty
string as its first value, Get returns `("", false)`. -/
theorem server_carrier_empty_as_absent (h : Header) (k : String)
    (hempty : headerValues k h = [] ∨ (headerValues k h).headD "" = "") :
    HTTPHeaderCarrierGet h k = ("", false) := by
  have hg : headerGet k h = "" := by
    unfold headerGet
    cases hv : headerValues k h with
    | nil => rfl
    | cons a t =>
      rcases hempty with he | he
      · rw [hv] at he; cases he
      · rw [hv] at he; simpa using he
  unfold HTTPHeaderCarrierGet handlerGetHeader
  simp [hg]

/-- C10 witness: the theorem applied to the empty header collection. -/
theorem server_carrier_empty_as_absent_witness :
    (headerValues "traceparent" ([] : Header) = [] ∨
      (headerValues "traceparent" ([] : Header)).headD "" = "") ∧
    HTTPHeaderCarrierGet ([] : Header) "traceparent" = ("", false) :=
  ⟨Or.inl rfl, server_carrier_empty_as_absent [] "traceparent" (Or.inl rfl)⟩

/-- C8 counterexample: the server-side HTTPHeaderCarrier's Set is an
empty method — at a concrete input, Set on the empty collection leaves
it empty and a following Get does not return the written value, so "for
every HTTP carrier adapter … after Set(k, v) the collection holds
exactly the single value v under k" fails. -/
theorem server_carrier_set_counterexample :
    HTTPHeaderCarrierSet "traceparent" demoTraceparent ([] : Header) = ([] : Header) ∧
    HTTPHeaderCarrierGet
      (HTTPHeaderCarrierSet "traceparent" demoTraceparent ([] : Header))
      "traceparent" = ("", false) :=
  ⟨rfl, by decide⟩

/-- C8 amended: the client-side HTTP carrier behaves as claimed — after
Set(k, v) the collection holds exactly the single value v under k (when
the collection held at most one entry for the key, as every Go header
map state does), Get(k) returns `(v, found)`, and Get is
case-insensitive in that keys with equal canonical form read the same
entry; the server-side HTTPHeaderCarrier's Set, however, is a deliberate
no-op leaving the wrapped collection unchanged. -/
theorem http_carrier_spec (h : Header) (k k2 v : String)
    (hcount : h.countP (fun e => e.1 = canonicalMIMEHeaderKey k) ≤ 1)
    (hcanon : canonicalMIMEHeaderKey k = canonicalMIMEHeaderKey k2) :
    headerValues k (httpHeaderCarrierSet k v h) = [v] ∧
    httpHeaderCarrierGet k (httpHeaderCarrierSet k v h) = (v, true) ∧
    (httpHeaderCarrierSet k v h).countP
      (fun e => e.1 = canonicalMIMEHeaderKey k) = 1 ∧
    httpHeaderCarrierGet k h = httpHeaderCarrierGet k2 h ∧
    HTTPHeaderCarrierSet k v h = h := by
  refine ⟨headerValues_headerSet_self k v h, ?_, ?_, ?_, rfl⟩
  · unfold httpHeaderCarrierGet httpHeaderCarrierSet
    rw [headerValues_headerSet_self]
  · unfold httpHeaderCarrierSet headerSet
    rw [countP_headerSetEntry]
    by_cases h0 : h.countP (fun e => e.1 = canonicalMIMEHeaderKey k) = 0
    · simp [h0]
    · have h1 : h.countP (fun e => e.1 = canonicalMIMEHeaderKey k) = 1 :=
        Nat.le_antisymm hcount (Nat.one_le_iff_ne_zero.mpr h0)
      simp [h1]
  · unfold httpHeaderCarrierGet headerValues
    rw [hcanon]

/-- C8 witness: the amended theorem applied to the empty collection,
the traceparent key and its upper-case variant. -/
theorem http_carrier_spec_witness :
    ([] : Header).countP
      (fun e => e.1 = canonicalMIMEHeaderKey "traceparent") ≤ 1 ∧
    canonicalMIMEHeaderKey "traceparent" = canonicalMIMEHeaderKey "TRACEPARENT" ∧
    headerValues "traceparent"
      (httpHeaderCarrierSet "traceparent" demoTraceparent []) = [demoTraceparent] ∧
    httpHeaderCarrierGet "traceparent"
      (httpHeaderCarrierSet "traceparent" demoTraceparent []) =
      (demoTraceparent, true) :=
  ⟨by decide, by decide,
   (http_carrier_spec [] "traceparent" "TRACEPARENT" demoTraceparent
      (by decide) (by decide)).1,
   (http_carrier_spec [] "traceparent" "TRACEPARENT" demoTraceparent
      (by decide) (by decide)).2.1⟩

/-- C9: with a registered OTEL tracer and a non-empty fresh trace id,
CreateKafkaConsumerContext always returns a context carrying an active
span with a usable trace identifier: when the message headers hold a
valid traceparent the span continues that trace (child of the extracted
context), and otherwise the span starts a brand-new root trace with the
fresh id — in both cases the identifier is non-empty. -/
theorem createKafkaConsumerContext_usable (freshTid freshSid : String)
    (headers : List KafkaHeader) (hft : freshTid ≠ "") :
    (CreateKafkaConsumerContext (some TracerImpl.otel) freshTid freshSid
        headers).otelSpanCtx =
      some
        { traceId :=
            (match parseTraceparent
                (carrierAdapterGet (fun key => consumerGet key headers)
                  "traceparent") with
            | some p => p.traceId
            | none => freshTid)
          spanId := freshSid } ∧
    (match parseTraceparent
        (carrierAdapterGet (fun key => consumerGet key headers)
          "traceparent") with
    | some p => p.traceId
    | none => freshTid) ≠ "" := by
  constructor
  · unfold CreateKafkaConsumerContext GetTracer tracerExtract OTELTracerExtract
      tracerStartSpan otelStartSpan otelPropagatorExtract
    cases hp : parseTraceparent
        (carrierAdapterGet (fun key => consumerGet key headers) "traceparent") with
    | none => simp [hp, Context.background]
    | some p => simp [hp, Context.background]
  · cases hp : parseTraceparent
        (carrierAdapterGet (fun key => consumerGet key headers) "traceparent") with
    | none => simpa using hft
    | some p =>
      show p.traceId ≠ ""
      intro hcon
      have hlen := parseTraceparent_traceId_length _ _ hp
      rw [hcon] at hlen
      exact absurd hlen (by decide)

/-- C9 witness: the theorem applied to a message carrying the spec's
example traceparent — the resulting context reports that trace id. -/
theorem createKafkaConsumerContext_usable_witness :
    ("deadbeef" : String) ≠ "" ∧
    (CreateKafkaConsumerContext (some TracerImpl.otel) "deadbeef" "ef12"
        [{ key := "traceparent", value := demoTraceparent }]).otelSpanCtx =
      some { traceId := "4bf92f3577b34da6a3ce929d0e0e4736", spanId := "ef12" } := by
  refine ⟨by decide, ?_⟩
  have h := (createKafkaConsumerContext_usable "deadbeef" "ef12"
    [{ key := "traceparent", value := demoTraceparent }] (by decide)).1
  rw [h]
  decide

/-- C3 counterexample: in an environment whose winning source (trace.yaml
in the first config dir) exists and parses but fails validation, while
every other source is absent, the per-source loader does produce the
validation error, yet Load returns the built-in defaults with a nil
error — it does not surface the error and it does continue past the
failed source. -/
theorem load_validation_failure_counterexample :
    loadFromTraceYAML loadCounterEnv.traceYaml =
      (none, some (ConfigError.invalidExporterType "kafka")) ∧
    Load loadCounterEnv = (some (getDefaultConfig "zltrace"), none) :=
  ⟨rfl, rfl⟩

/-- C3 amended: Load never returns an error at all — its per-source
guard `config != nil && err == nil` treats a source whose parsed config
fails validation like an unsuccessful source, so resolution continues to
the lower-ranked sources and ultimately the built-in defaults, exactly
as if the failing trace.yaml source were absent (the per-source loader
does return the validation error, but Load swallows it). -/
theorem load_never_errors_and_falls_through (env : LoaderEnv) (cfg : TraceConfig)
    (e : ConfigError) (rest : List FileState)
    (hval : validateConfig cfg = some e) :
    (∀ env2 : LoaderEnv, (Load env2).2 = none) ∧
    loadFromTraceYAML (FileState.content cfg :: rest) = (none, some e) ∧
    Load { env with traceYaml := FileState.content cfg :: rest } =
      Load { env with traceYaml := [] } := by
  have h1 : loadFromTraceYAML (FileState.content cfg :: rest) = (none, some e) := by
    simp [loadFromTraceYAML, loadFromTraceYAMLFile, parseTraceConfig, hval]
  refine ⟨?_, h1, ?_⟩
  · intro env2
    unfold Load
    dsimp only
    repeat' split
    all_goals rfl
  · have h2 : loadFromTraceYAML ([] : List FileState) = (none, none) := rfl
    unfold Load
    simp [h1, h2]

/-- C3 witness: the amended theorem applied to the concrete failing
environment. -/
theorem load_never_errors_and_falls_through_witness :
    validateConfig badExporterConfig =
      some (ConfigError.invalidExporterType "kafka") ∧
    (Load loadCounterEnv).2 = none ∧
    Load { loadCounterEnv with
            traceYaml := [FileState.content badExporterConfig] } =
      Load { loadCounterEnv with traceYaml := [] } :=
  ⟨rfl,
   (load_never_errors_and_falls_through loadCounterEnv badExporterConfig
      (ConfigError.invalidExporterType "kafka") [] rfl).1 loadCounterEnv,
   (load_never_errors_and_falls_through loadCounterEnv badExporterConfig
      (ConfigError.invalidExporterType "kafka") [] rfl).2.2⟩

end Zltrace
